import Mathlib

/-!
Verification development for the fetch-student-data retrieval engine.

Shallow embedding of the Go sources:
- `MakeRequest` embeds `src/services/client.go` `(*JacadClient).MakeRequest`
  (the Backoff Executor).
- `GetAuthToken` embeds the auth-token cache method from `src/unnamed/part_000`.
- `FetchPage` embeds `src/services/client.go` `(*JacadClient).FetchPage`.
- `processBatchEnrollmentsFiltered` embeds the batch orchestrator from
  `src/services/enrollments_service.go`.
- `FetchEnrollmentsFiltered` embeds the retrieval driver from
  `src/services/enrollments_service.go` (the accumulate-then-overwrite
  variant the spec adopts as canonical).
- `OverwriteSheetData` embeds `src/services/sheet_writer.go`
  `(*GoogleSheetsWriter).OverwriteSheetData`.

Concurrency is modelled by sequentialising each batch: per-page fetch
outcomes are an input function, the merged sink is taken in page-index
order (the spec declares the sink unordered), and the cancellation signal
is a monotone predicate over abstract observation times.  Machine integers
are modelled as `Nat` (the Go values involved are small non-negative
counters); durations are in the base unit of `time.Duration` operations,
record rows are abstracted to opaque identifiers.
-/

namespace FetchStudentData

/-- Opaque domain record (a `models.Enrollment` value); claims only move
records around, never inspect fields, so an identifier suffices. -/
abbrev Rec := Nat

/-- `models.Page` from `src/models/page.go`. -/
structure PageDesc where
  currentPage : Nat
  pageSize : Nat
  totalElements : Nat
  totalPages : Nat
deriving DecidableEq, Repr

/-! ## HTTP request layer: `MakeRequest` in `src/services/client.go` -/

/-- Outcome of one `c.Client.Do(req)` call: a transport error or an HTTP
response with a status code and body. -/
inductive HTTPOutcome where
  | transportError
  | status (code : Nat) (body : String)
deriving DecidableEq, Repr

/-- How one attempt's outcome steers the `MakeRequest` loop. -/
inductive AttemptClass where
  | retryable
  | terminalErr (code : Nat) (body : String)
  | done (body : String)
deriving DecidableEq, Repr

/-- The branch chain of `MakeRequest` (client.go lines 73-105), in source
order: transport error retries; 429 or >= 500 retries; 401 returns the
error immediately; any other >= 400 returns the error immediately;
everything else returns the body as success. -/
def classifyOutcome : HTTPOutcome → AttemptClass
  | .transportError => .retryable
  | .status code body =>
    if code = 429 ∨ 500 ≤ code then .retryable
    else if code = 401 then .terminalErr code body
    else if 400 ≤ code then .terminalErr code body
    else .done body

/-- The request-layer configuration consumed by `MakeRequest`
(`config.MaxRetries`, `config.RetryDelay`). -/
structure ReqConfig where
  maxRetries : Nat
  retryDelay : Nat
deriving DecidableEq, Repr

/-- Result of a `MakeRequest` run. -/
inductive ReqResult where
  | cancelled
  | success (body : String)
  | terminal (code : Nat) (body : String)
  | exhausted
deriving DecidableEq, Repr

/-- Observable trace of a `MakeRequest` run: final result, the completed
backoff sleeps in order, and how many times the action was attempted. -/
structure ReqTrace where
  result : ReqResult
  sleeps : List Nat
  attempts : Nat
deriving DecidableEq, Repr

/-- The retry loop of `MakeRequest` (client.go lines 50-119).  `fuel`
starts at `maxRetries + 1` and together with `attempt` mirrors the Go
loop bound `attempt <= maxRetries`.  `cancelBefore a` (resp.
`cancelDuring a`) is whether the context is cancelled at the check before
attempt `a` (resp. during the backoff sleep after attempt `a`); an
interrupted sleep is not recorded as completed. -/
def mrLoop (cfg : ReqConfig) (responses : Nat → HTTPOutcome)
    (cancelBefore cancelDuring : Nat → Bool) :
    Nat → Nat → List Nat → Nat → ReqTrace
  | 0, _, sleeps, nAtt => ⟨.exhausted, sleeps, nAtt⟩
  | fuel + 1, attempt, sleeps, nAtt =>
    if cancelBefore attempt then ⟨.cancelled, sleeps, nAtt⟩
    else
      match classifyOutcome (responses attempt) with
      | .done body => ⟨.success body, sleeps, nAtt + 1⟩
      | .terminalErr code body => ⟨.terminal code body, sleeps, nAtt + 1⟩
      | .retryable =>
        if attempt < cfg.maxRetries then
          if cancelDuring attempt then ⟨.cancelled, sleeps, nAtt + 1⟩
          else
            mrLoop cfg responses cancelBefore cancelDuring fuel (attempt + 1)
              (sleeps ++ [cfg.retryDelay * 2 ^ attempt]) (nAtt + 1)
        else ⟨.exhausted, sleeps, nAtt + 1⟩

/-- `(*JacadClient).MakeRequest`: run the loop from attempt 0 with
`maxRetries + 1` available attempts. -/
def MakeRequest (cfg : ReqConfig) (responses : Nat → HTTPOutcome)
    (cancelBefore cancelDuring : Nat → Bool) : ReqTrace :=
  mrLoop cfg responses cancelBefore cancelDuring (cfg.maxRetries + 1) 0 [] 0

/-! ## Auth token cache: `GetAuthToken` in `src/unnamed/part_000` -/

/-- The part of `config.Config` the token cache can see; the source field
is `AuthTokenExpiry time.Duration` (here in seconds). -/
structure TokenConfig where
  authTokenExpiry : Nat
deriving DecidableEq, Repr

/-- The mutable fields `token`, `tokenExpiry` of `JacadClient`; times are
absolute instants in seconds, with the zero value for the fresh client. -/
structure TokenState where
  token : String
  tokenExpiry : Nat
deriving DecidableEq, Repr

/-- `NewJacadClient` leaves `token` and `tokenExpiry` at their zero
values. -/
def initialTokenState : TokenState := ⟨"", 0⟩

/-- Outcome of the authentication exchange (`MakeRequest` POST to the
AUTH endpoint plus JSON parse of the `token` field), as seen by
`GetAuthToken`: the request/parse failed, or it produced a token string
(possibly empty). -/
inductive AuthExchange where
  | failure
  | token (t : String)
deriving DecidableEq, Repr

/-- `(*JacadClient).GetAuthToken` (src/unnamed/part_000 lines 102-139),
serialized by `muAuth`: return the cached token when it is nonempty and
`time.Now().Before(tokenExpiry)`; otherwise perform one authentication
exchange, reject an empty token, and on success cache the token with
expiry `time.Now().Add(1 * time.Hour)` — the literal 3600 below is the
source's hardcoded one hour (the configuration's `AuthTokenExpiry` is
not consulted).  The third component counts authentication exchanges
performed by this call (0 or 1). -/
def GetAuthToken (_cfg : TokenConfig) (st : TokenState) (now : Nat)
    (exch : AuthExchange) : Except Unit String × TokenState × Nat :=
  if st.token ≠ "" ∧ now < st.tokenExpiry then
    (.ok st.token, st, 0)
  else
    match exch with
    | .failure => (.error (), st, 1)
    | .token t =>
      if t = "" then (.error (), st, 1)
      else (.ok t, ⟨t, now + 3600⟩, 1)

/-- A sequence of `GetAuthToken` calls against the shared client state:
`times` are the call instants in order, `exch k` is what the exchange
would return on the `k`-th call (counting from `k0`) if one is performed.
Returns the final state and the total number of exchanges performed. -/
def runAuthCalls (cfg : TokenConfig) (exch : Nat → AuthExchange) :
    TokenState → Nat → List Nat → TokenState × Nat
  | st, _, [] => (st, 0)
  | st, k0, t :: ts =>
    let r := GetAuthToken cfg st t (exch k0)
    let rest := runAuthCalls cfg exch r.2.1 (k0 + 1) ts
    (rest.1, r.2.2 + rest.2)

/-! ## Page fetcher: `FetchPage` in `src/services/client.go` -/

/-- A response body as seen by `json.Unmarshal` into
`models.APIResponse[models.Enrollment]` (src/models/response.go): either
the bytes are not valid JSON for the envelope (unmarshal error), or they
decode to the envelope whose `page` field is a nullable pointer — absent
in the JSON means `nil` without error — and whose `elements` field is the
record list. -/
inductive Body where
  | invalid
  | envelope (page : Option PageDesc) (elements : List Rec)
deriving DecidableEq, Repr

/-- Result of `(*JacadClient).FetchPage` (client.go lines 123-160). -/
inductive FetchPageResult where
  | authErr
  | httpErr
  | decodeErr
  | ok (records : List Rec) (page : Option PageDesc)
deriving DecidableEq, Repr

/-- `(*JacadClient).FetchPage`: get a token (propagating failure), issue
the request through `MakeRequest` (propagating failure, `reqRes = none`),
then unmarshal the body; only an unmarshal failure is a decode error. -/
def FetchPage (tokenRes : Except Unit String) (reqRes : Option Body) :
    FetchPageResult :=
  match tokenRes with
  | .error _ => .authErr
  | .ok _ =>
    match reqRes with
    | none => .httpErr
    | some .invalid => .decodeErr
    | some (.envelope page elements) => .ok elements page

/-! ## Batch orchestrator: `processBatchEnrollmentsFiltered` -/

/-- The page indices seeded into the `pagesToFetch` channel:
`startPage + i` for `i < count`. -/
def batchPages (startPage count : Nat) : List Nat :=
  (List.range count).map (startPage + ·)

/-- Result of `processBatchEnrollmentsFiltered`
(src/services/enrollments_service.go lines 142-235): the
post-join context check dominates; then all-failed is the `BatchFailed`
error returning no records; otherwise the merged records with the
failure count. -/
inductive BatchResult where
  | cancelled
  | allFailed
  | ok (records : List Rec) (failedPages : Nat)
deriving DecidableEq, Repr

/-- `(*JacadClient).processBatchEnrollmentsFiltered`, sequentialised.
`fetch p` is the outcome of `FetchPage` on page `p`: `none` is a
non-cancellation failure (incrementing `errorCount`), `some (recs, pg)`
a success whose page descriptor the worker discards
(`pageElements, _, err := c.FetchPage(...)`).  The worker-pool size
`min(MaxParallelRequests, count)` only affects scheduling, not the
result.  `ctxCancelled` is the value of the `ctx.Err() != nil` check
after `wg.Wait()`; when it holds the batch returns the cancellation
error regardless of partial progress, so the partial data the model
computes eagerly is discarded exactly as in the source.  The merged
records are taken in page order (the sink is unordered); per-page lists
that are empty are skipped before appending, as in the source. -/
def processBatchEnrollmentsFiltered (fetch : Nat → Option (List Rec × Option PageDesc))
    (startPage count : Nat) (ctxCancelled : Bool) : BatchResult :=
  let pages := batchPages startPage count
  let errorCount := pages.countP (fun p => (fetch p).isNone)
  let collected := pages.filterMap (fun p => (fetch p).map Prod.fst)
  let allData := (collected.filter (fun l => !l.isEmpty)).flatten
  if ctxCancelled then .cancelled
  else if 0 < errorCount ∧ errorCount = count ∧ 0 < count then .allFailed
  else .ok allData errorCount

/-! ## Sink writer: `OverwriteSheetData` in `src/services/sheet_writer.go` -/

/-- One row of the final value range: the header row or a data row built
from one record. -/
inductive Row where
  | header (h : List String)
  | data (r : Rec)
deriving DecidableEq, Repr

/-- A remote sink mutation performed against the spreadsheet. -/
inductive SinkOp where
  | ensure (sheet : String)
  | clear (sheet : String)
  | update (sheet : String) (values : List Row)
  | append (sheet : String) (values : List Row)
deriving DecidableEq, Repr

/-- `(*GoogleSheetsWriter).OverwriteSheetData` (sheet_writer.go lines
111-154), success path: ensure the sheet exists, clear it, build
`allData` as the header row (when headers are nonempty) followed by the
data rows, and issue one `Values.Update` at A1 unless `allData` is
empty.  Returns the list of sink mutations issued, in order. -/
def OverwriteSheetData (sheet : String) (headers : List String)
    (rows : List Rec) : List SinkOp :=
  let allData : List Row :=
    (if headers.isEmpty then [] else [Row.header headers]) ++ rows.map Row.data
  if allData.isEmpty then [.ensure sheet, .clear sheet]
  else [.ensure sheet, .clear sheet, .update sheet allData]

/-- The 13 column headers hardcoded in `FetchEnrollmentsFiltered`
(enrollments_service.go lines 21-27). -/
def enrollmentHeaders : List String :=
  ["idMatricula", "aluno", "ra", "curso",
   "turma", "status", "periodoLetivo",
   "unidadeFisica", "organizacao",
   "idOrg", "dataMatricula",
   "dataAtivacao", "dataCadastro"]

/-! ## Retrieval driver: `FetchEnrollmentsFiltered` -/

/-- How the driver run ended.
`cancelledErr` is the `"filtered enrollment fetch cancelled"` return from
the top-of-loop context check; `writeFailed` is the
`"failed to write all enrollments to sheet"` return when the final
overwrite is invoked under an already-cancelled context (its remote
calls fail, so no sink mutation is performed); `pageZeroErr` and
`noPageInfo` are the two early returns around page 0. -/
inductive RunOutcome where
  | ok
  | cancelledErr
  | writeFailed
  | pageZeroErr
  | noPageInfo
deriving DecidableEq, Repr

/-- Observables of one driver run: how it ended, the run accumulator,
the batch requests `(startPage, count)` issued to the orchestrator in
order, whether the final `OverwriteSheetData` call was invoked, and the
sink mutations performed. -/
structure RunResult where
  outcome : RunOutcome
  acc : List Rec
  batches : List (Nat × Nat)
  overwriteCalled : Bool
  sinkOps : List SinkOp
deriving DecidableEq, Repr

/-- The monotone cancellation signal: set from instant `c` on when
`cancelTime = some c`, never set when `none`.  Observation instants are
abstract: iteration `k` of the driver loop does its entry check at time
`2 * k` and its post-join batch check at `2 * k + 1`; the final write of
a run whose loop ran `k` iterations is observed at time `2 * k`. -/
def isCancelledAt (cancelTime : Option Nat) (t : Nat) : Bool :=
  match cancelTime with
  | none => false
  | some c => c ≤ t

/-- The code after the batch loop (enrollments_service.go lines 92-98):
`writeAllEnrollmentsToSheet` maps the accumulator to rows and calls
`OverwriteSheetData`.  Under a cancelled context that call's first
remote operation fails and the driver returns the write error; otherwise
the overwrite succeeds. -/
def finalizeRun (sheet : String) (acc : List Rec) (batches : List (Nat × Nat))
    (iter : Nat) (cancelTime : Option Nat) : RunResult :=
  if isCancelledAt cancelTime (2 * iter) then
    ⟨.writeFailed, acc, batches, true, []⟩
  else
    ⟨.ok, acc, batches, true, OverwriteSheetData sheet enrollmentHeaders acc⟩

/-- The batch loop of `FetchEnrollmentsFiltered` (enrollments_service.go
lines 72-89): while `currentPage < totalPages`, check the context (the
`select` on `ctx.Done()`), issue one batch of the fixed size `bs`, on
error only log and move on, on success append the records, and advance
`currentPage` by `bs`.  `fuel` is an upper bound on the remaining
iterations (`totalPages` suffices whenever `1 ≤ bs`). -/
def driverLoop (bs totalPages : Nat) (sheet : String)
    (fetch : Nat → Option (List Rec × Option PageDesc))
    (cancelTime : Option Nat) :
    Nat → Nat → List Rec → List (Nat × Nat) → Nat → RunResult
  | _, iter, acc, batches, 0 => finalizeRun sheet acc batches iter cancelTime
  | currentPage, iter, acc, batches, fuel + 1 =>
    if currentPage < totalPages then
      if isCancelledAt cancelTime (2 * iter) then
        ⟨.cancelledErr, acc, batches, false, []⟩
      else
        match
          processBatchEnrollmentsFiltered fetch currentPage bs
            (isCancelledAt cancelTime (2 * iter + 1)) with
        | .ok recs _ =>
          driverLoop bs totalPages sheet fetch cancelTime (currentPage + bs)
            (iter + 1) (acc ++ recs) (batches ++ [(currentPage, bs)]) fuel
        | _ =>
          driverLoop bs totalPages sheet fetch cancelTime (currentPage + bs)
            (iter + 1) acc (batches ++ [(currentPage, bs)]) fuel
    else finalizeRun sheet acc batches iter cancelTime

/-- `(*JacadClient).FetchEnrollmentsFiltered`
(src/services/enrollments_service.go lines 17-99): fetch page 0,
propagate its failure; reject a `nil` page descriptor; on
`totalPages == 0 || totalElements == 0` overwrite the sheet with the
headers and no data rows; otherwise seed the accumulator with page 0's
records and, when `totalPages > 1`, run the batch loop with the batch
size fixed once as `min(MaxPagesPerBatch, totalPages - 1)`, then hand
the accumulator to the sink in one overwrite. -/
def FetchEnrollmentsFiltered (maxPagesPerBatch : Nat) (sheet : String)
    (page0 : FetchPageResult)
    (fetch : Nat → Option (List Rec × Option PageDesc))
    (cancelTime : Option Nat) : RunResult :=
  match page0 with
  | .authErr | .httpErr | .decodeErr => ⟨.pageZeroErr, [], [], false, []⟩
  | .ok _ none => ⟨.noPageInfo, [], [], false, []⟩
  | .ok firstPageElements (some pg) =>
    if pg.totalPages = 0 ∨ pg.totalElements = 0 then
      if isCancelledAt cancelTime 0 then ⟨.writeFailed, [], [], true, []⟩
      else ⟨.ok, [], [], true, OverwriteSheetData sheet enrollmentHeaders []⟩
    else
      if 1 < pg.totalPages then
        let bs := min maxPagesPerBatch (pg.totalPages - 1)
        driverLoop bs pg.totalPages sheet fetch cancelTime 1 0
          firstPageElements [] pg.totalPages
      else finalizeRun sheet firstPageElements [] 0 cancelTime

/-- The batch requests the driver loop issues, extracted as a
standalone recurrence: starting from `currentPage`, one request
`(currentPage, bs)` per iteration while `currentPage < totalPages`,
advancing by the fixed `bs`. -/
def issuedBatches (bs totalPages : Nat) : Nat → Nat → List (Nat × Nat)
  | _, 0 => []
  | currentPage, fuel + 1 =>
    if currentPage < totalPages then
      (currentPage, bs) :: issuedBatches bs totalPages (currentPage + bs) fuel
    else []

/-! ## Lemmas about the retry loop -/

/-- Running the loop from attempt `attempt` when the next `r` attempts
classify as retryable and attempt `attempt + r` succeeds: the loop
returns the success, appends one completed sleep per failed attempt, and
performs `r + 1` further attempts. -/
theorem mrLoop_retryable_prefix_success (cfg : ReqConfig)
    (responses : Nat → HTTPOutcome) (body : String) :
    ∀ (r fuel attempt : Nat) (sleeps : List Nat) (nAtt : Nat),
      r < fuel →
      attempt + fuel = cfg.maxRetries + 1 →
      (∀ i, i < r → classifyOutcome (responses (attempt + i)) = .retryable) →
      classifyOutcome (responses (attempt + r)) = .done body →
      mrLoop cfg responses (fun _ => false) (fun _ => false) fuel attempt sleeps nAtt =
        ⟨.success body,
         sleeps ++ (List.range' attempt r).map (fun i => cfg.retryDelay * 2 ^ i),
         nAtt + (r + 1)⟩ := by
  intro r
  induction r with
  | zero =>
    intro fuel attempt sleeps nAtt hfuel _ _ hsucc
    obtain ⟨f, rfl⟩ : ∃ f, fuel = f + 1 := ⟨fuel - 1, by omega⟩
    have hs : classifyOutcome (responses attempt) = .done body := by simpa using hsucc
    simp [mrLoop, hs]
  | succ r ih =>
    intro fuel attempt sleeps nAtt hfuel hinv hfail hsucc
    obtain ⟨f, rfl⟩ : ∃ f, fuel = f + 1 := ⟨fuel - 1, by omega⟩
    have hra : classifyOutcome (responses attempt) = .retryable := by
      simpa using hfail 0 (by omega)
    have hlt : attempt < cfg.maxRetries := by omega
    have hfail2 : ∀ i, i < r → classifyOutcome (responses (attempt + 1 + i)) = .retryable := by
      intro i hi
      have h := hfail (i + 1) (by omega)
      rwa [show attempt + (i + 1) = attempt + 1 + i by omega] at h
    have hsucc2 : classifyOutcome (responses (attempt + 1 + r)) = .done body := by
      rwa [show attempt + (r + 1) = attempt + 1 + r by omega] at hsucc
    have hrec := ih f (attempt + 1) (sleeps ++ [cfg.retryDelay * 2 ^ attempt]) (nAtt + 1)
      (by omega) (by omega) hfail2 hsucc2
    simp only [mrLoop, Bool.false_eq_true, if_false, hra, hlt, if_true, if_pos hlt]
    rw [hrec]
    simp [List.range'_succ, List.append_assoc]
    omega

/-- Running the loop when every attempt classifies as retryable: the
retry budget is exhausted, with one completed sleep per attempt except
the last and one attempt per unit of fuel. -/
theorem mrLoop_all_retryable (cfg : ReqConfig) (responses : Nat → HTTPOutcome)
    (hall : ∀ i, classifyOutcome (responses i) = .retryable) :
    ∀ (fuel attempt : Nat) (sleeps : List Nat) (nAtt : Nat),
      attempt + fuel = cfg.maxRetries + 1 →
      mrLoop cfg responses (fun _ => false) (fun _ => false) fuel attempt sleeps nAtt =
        ⟨.exhausted,
         sleeps ++ (List.range' attempt (fuel - 1)).map (fun i => cfg.retryDelay * 2 ^ i),
         nAtt + fuel⟩ := by
  intro fuel
  induction fuel with
  | zero => intro attempt sleeps nAtt _; simp [mrLoop]
  | succ f ih =>
    intro attempt sleeps nAtt hinv
    by_cases hlt : attempt < cfg.maxRetries
    · have hrec := ih (attempt + 1) (sleeps ++ [cfg.retryDelay * 2 ^ attempt]) (nAtt + 1)
        (by omega)
      simp only [mrLoop, Bool.false_eq_true, if_false, hall attempt, if_pos hlt]
      rw [hrec]
      obtain ⟨g, rfl⟩ : ∃ g, f = g + 1 := ⟨f - 1, by omega⟩
      simp [List.range'_succ, List.append_assoc]
      omega
    · have hf : f = 0 := by omega
      subst hf
      simp [mrLoop, hall attempt, hlt]

/-- Claim C4: an action that fails retryably exactly `r` times with
`r ≤ MaxRetries` and then succeeds is run by `MakeRequest` exactly
`r + 1` times (never more than `MaxRetries + 1`), with exactly `r`
backoff sleeps whose length after attempt `i` is `RetryDelay * 2 ^ i`,
and the success result is returned. -/
theorem makeRequest_retries_then_succeeds (cfg : ReqConfig)
    (responses : Nat → HTTPOutcome) (r : Nat) (body : String)
    (hr : r ≤ cfg.maxRetries)
    (hfail : ∀ i, i < r → classifyOutcome (responses i) = .retryable)
    (hsucc : classifyOutcome (responses r) = .done body) :
    MakeRequest cfg responses (fun _ => false) (fun _ => false) =
      ⟨.success body, (List.range r).map (fun i => cfg.retryDelay * 2 ^ i), r + 1⟩ ∧
    r + 1 ≤ cfg.maxRetries + 1 := by
  constructor
  · have h := mrLoop_retryable_prefix_success cfg responses body r (cfg.maxRetries + 1) 0 [] 0
      (by omega) (by omega) (by simpa using hfail) (by simpa using hsucc)
    rw [MakeRequest, h]
    simp [List.range_eq_range']
  · omega

/-- Concrete run of claim C4: two retryable failures (HTTP 500) then a
success under `MaxRetries = 3`, `RetryDelay = 2000`. -/
theorem makeRequest_retries_then_succeeds_witness :
    MakeRequest ⟨3, 2000⟩
        (fun i => if i < 2 then .status 500 "e" else .status 200 "ok")
        (fun _ => false) (fun _ => false) =
      ⟨.success "ok", [2000, 4000], 3⟩ ∧ 2 + 1 ≤ 3 + 1 := by
  have h := makeRequest_retries_then_succeeds ⟨3, 2000⟩
    (fun i => if i < 2 then .status 500 "e" else .status 200 "ok") 2 "ok"
    (by decide) (by decide) (by decide)
  simpa using h

/-- Claim C5 counterexample: HTTP status 304 is not a 2xx status, yet
`MakeRequest` returns its body as a success on the first attempt. -/
theorem makeRequest_success_on_non_2xx :
    MakeRequest ⟨3, 2000⟩ (fun _ => .status 304 "nm")
        (fun _ => false) (fun _ => false) =
      ⟨.success "nm", [], 1⟩ ∧ ¬(200 ≤ 304 ∧ 304 ≤ 299) := by decide

/-- Claim C5 (amended): for every HTTP response, status 429 and every
5xx are retryable (surfaced only after the retry budget is exhausted);
every other 4xx, 401 included, is terminal with status and body and is
never retried; and success (body returned) occurs exactly for the
statuses below 400 — all 2xx, but also 1xx and 3xx. -/
theorem makeRequest_status_classification (cfg : ReqConfig) (code : Nat) (body : String) :
    (code = 429 ∨ 500 ≤ code →
      MakeRequest cfg (fun _ => .status code body) (fun _ => false) (fun _ => false) =
        ⟨.exhausted, (List.range cfg.maxRetries).map (fun i => cfg.retryDelay * 2 ^ i),
         cfg.maxRetries + 1⟩) ∧
    (¬(code = 429 ∨ 500 ≤ code) → 400 ≤ code →
      MakeRequest cfg (fun _ => .status code body) (fun _ => false) (fun _ => false) =
        ⟨.terminal code body, [], 1⟩) ∧
    (¬(code = 429 ∨ 500 ≤ code) → code < 400 →
      MakeRequest cfg (fun _ => .status code body) (fun _ => false) (fun _ => false) =
        ⟨.success body, [], 1⟩) := by
  refine ⟨?_, ?_, ?_⟩
  · intro hretry
    have h := mrLoop_all_retryable cfg (fun _ => .status code body)
      (by intro i; simp only [classifyOutcome]; rw [if_pos hretry])
      (cfg.maxRetries + 1) 0 [] 0 (by omega)
    rw [MakeRequest, h]
    simp [List.range_eq_range']
  · intro hnr h400
    have hc : classifyOutcome (.status code body) = .terminalErr code body := by
      simp only [classifyOutcome]
      rw [if_neg hnr]
      by_cases h401 : code = 401
      · rw [if_pos h401, h401]
      · rw [if_neg h401, if_pos h400]
    simp [MakeRequest, mrLoop, hc]
  · intro hnr h400
    have hc : classifyOutcome (.status code body) = .done body := by
      simp only [classifyOutcome]
      rw [if_neg hnr, if_neg (show ¬code = 401 by omega), if_neg (show ¬400 ≤ code by omega)]
    simp [MakeRequest, mrLoop, hc]

/-- Concrete runs of claim C5 (amended): 503 exhausts the retry budget,
404 is terminal on the first attempt, 204 succeeds on the first
attempt. -/
theorem makeRequest_status_classification_witness :
    MakeRequest ⟨1, 7⟩ (fun _ => .status 503 "x") (fun _ => false) (fun _ => false) =
      ⟨.exhausted, [7], 2⟩ ∧
    MakeRequest ⟨1, 7⟩ (fun _ => .status 404 "nf") (fun _ => false) (fun _ => false) =
      ⟨.terminal 404 "nf", [], 1⟩ ∧
    MakeRequest ⟨1, 7⟩ (fun _ => .status 204 "") (fun _ => false) (fun _ => false) =
      ⟨.success "", [], 1⟩ := by
  refine ⟨?_, ?_, ?_⟩
  · have h := (makeRequest_status_classification ⟨1, 7⟩ 503 "x").1 (Or.inr (by omega))
    simpa using h
  · exact (makeRequest_status_classification ⟨1, 7⟩ 404 "nf").2.1 (by decide) (by omega)
  · exact (makeRequest_status_classification ⟨1, 7⟩ 204 "").2.2 (by decide) (by omega)

/-! ## Lemmas about the token cache -/

/-- Calls made while a nonempty token is cached and before its expiry
are all cache hits: the state is unchanged and no exchange happens. -/
theorem runAuthCalls_all_hits (cfg : TokenConfig) (exch : Nat → AuthExchange)
    (st : TokenState) (hne : st.token ≠ "") :
    ∀ (ts : List Nat) (k : Nat), (∀ t ∈ ts, t < st.tokenExpiry) →
      runAuthCalls cfg exch st k ts = (st, 0) := by
  intro ts
  induction ts with
  | nil => intro k _; rfl
  | cons t ts ih =>
    intro k hin
    have hhit : GetAuthToken cfg st t (exch k) = (.ok st.token, st, 0) := by
      simp only [GetAuthToken]
      rw [if_pos ⟨hne, hin t (List.mem_cons_self t ts)⟩]
    simp only [runAuthCalls, hhit]
    rw [ih (k + 1) (fun u hu => hin u (List.mem_cons_of_mem t hu))]
    rfl

/-- Splitting a call sequence: the exchange counts add up and the state
threads through. -/
theorem runAuthCalls_append (cfg : TokenConfig) (exch : Nat → AuthExchange) :
    ∀ (ts us : List Nat) (st : TokenState) (k : Nat),
      runAuthCalls cfg exch st k (ts ++ us) =
        ((runAuthCalls cfg exch (runAuthCalls cfg exch st k ts).1
            (k + ts.length) us).1,
         (runAuthCalls cfg exch st k ts).2 +
           (runAuthCalls cfg exch (runAuthCalls cfg exch st k ts).1
             (k + ts.length) us).2) := by
  intro ts
  induction ts with
  | nil => intro us st k; simp [runAuthCalls]
  | cons t ts ih =>
    intro us st k
    simp only [List.cons_append, runAuthCalls, List.append_eq]
    rw [ih us _ (k + 1)]
    simp only [List.length_cons]
    rw [show k + 1 + ts.length = k + (ts.length + 1) by omega]
    rw [Nat.add_assoc]

/-- Claim C6: a sequence of successful `GetAuthToken` calls whose times
all fall inside the validity window established by the first call
performs exactly one authentication exchange, and one further call after
the window has elapsed performs exactly one more. -/
theorem getAuthToken_token_reuse (cfg : TokenConfig) (exch : Nat → AuthExchange)
    (s s2 : String) (t0 tN : Nat) (rest : List Nat)
    (h0 : exch 0 = .token s) (hs : s ≠ "")
    (h1 : exch (rest.length + 1) = .token s2) (hs2 : s2 ≠ "")
    (hin : ∀ t ∈ rest, t < t0 + 3600)
    (hafter : t0 + 3600 ≤ tN) :
    (runAuthCalls cfg exch initialTokenState 0 (t0 :: rest)).2 = 1 ∧
    (runAuthCalls cfg exch initialTokenState 0 ((t0 :: rest) ++ [tN])).2 = 2 := by
  have hmiss1 : GetAuthToken cfg initialTokenState t0 (exch 0) =
      (.ok s, ⟨s, t0 + 3600⟩, 1) := by
    simp only [GetAuthToken, initialTokenState, h0]
    rw [if_neg (by simp), if_neg hs]
  have hfirst : runAuthCalls cfg exch initialTokenState 0 (t0 :: rest) =
      (⟨s, t0 + 3600⟩, 1) := by
    simp only [runAuthCalls, hmiss1]
    rw [runAuthCalls_all_hits cfg exch ⟨s, t0 + 3600⟩ hs rest 1 hin]
    rfl
  have hmiss2 : GetAuthToken cfg ⟨s, t0 + 3600⟩ tN (exch (rest.length + 1)) =
      (.ok s2, ⟨s2, tN + 3600⟩, 1) := by
    simp only [GetAuthToken, h1]
    rw [if_neg (by simp; omega), if_neg hs2]
  constructor
  · rw [hfirst]
  · rw [runAuthCalls_append cfg exch (t0 :: rest) [tN] initialTokenState 0, hfirst]
    simp only [List.length_cons, Nat.zero_add, runAuthCalls, hmiss2]

/-- Concrete run of claim C6: three calls inside the hour then one call
after it. -/
theorem getAuthToken_token_reuse_witness :
    (runAuthCalls ⟨3600⟩ (fun _ => .token "tk") initialTokenState 0 [0, 10, 20]).2 = 1 ∧
    (runAuthCalls ⟨3600⟩ (fun _ => .token "tk") initialTokenState 0
      ([0, 10, 20] ++ [5000])).2 = 2 := by
  have h := getAuthToken_token_reuse ⟨3600⟩ (fun _ => .token "tk") "tk" "tk" 0 5000
    [10, 20] rfl (by decide) rfl (by decide) (by decide) (by omega)
  simpa using h

/-- Claim C7 counterexample: with `AuthTokenExpiry` configured to 900
seconds (the 15-minute value of one config variant in the repository), a
successful refresh at time 0 caches expiry 3600 — the hour hardcoded in
`GetAuthToken` — not `now + 900`. -/
theorem getAuthToken_ignores_configured_expiry :
    GetAuthToken ⟨900⟩ initialTokenState 0 (.token "tk") =
      (.ok "tk", ⟨"tk", 3600⟩, 1) ∧ (3600 : Nat) ≠ 0 + 900 :=
  ⟨rfl, by omega⟩

/-- Claim C7 (amended): on every successful refresh `GetAuthToken` sets
the cached expiry to the current time plus a fixed one hour hardcoded in
the function, independent of both the configured `AuthTokenExpiry` and
the expiry the server may claim. -/
theorem getAuthToken_sets_fixed_one_hour_expiry (cfg : TokenConfig)
    (st : TokenState) (now : Nat) (t : String)
    (hmiss : ¬(st.token ≠ "" ∧ now < st.tokenExpiry)) (ht : t ≠ "") :
    GetAuthToken cfg st now (.token t) = (.ok t, ⟨t, now + 3600⟩, 1) := by
  simp only [GetAuthToken]
  rw [if_neg hmiss, if_neg ht]

/-- Concrete run of claim C7 (amended): a refresh at time 5 under a
900-second configured validity still caches expiry 5 + 3600. -/
theorem getAuthToken_sets_fixed_one_hour_expiry_witness :
    GetAuthToken ⟨900⟩ ⟨"old", 4⟩ 5 (.token "new") =
      (.ok "new", ⟨"new", 5 + 3600⟩, 1) :=
  getAuthToken_sets_fixed_one_hour_expiry ⟨900⟩ ⟨"old", 4⟩ 5 "new"
    (by simp) (by decide)

/-! ## Lemmas about the batch orchestrator and the driver loop -/

/-- Skipping the empty per-page record lists before merging does not
change the merged records. -/
theorem flatten_filter_nonempty {α : Type} (ls : List (List α)) :
    (ls.filter (fun l => !l.isEmpty)).flatten = ls.flatten := by
  induction ls with
  | nil => rfl
  | cons a l ih =>
    by_cases ha : a.isEmpty
    · have ha2 : a = [] := by simpa using ha
      simp [List.filter_cons, ha, ha2, ih]
    · simp [List.filter_cons, ha, ih]

/-- Every page of `batchPages startPage count` is `startPage + i` for
some `i < count`. -/
theorem mem_batchPages {p startPage count : Nat} :
    p ∈ batchPages startPage count ↔ ∃ i, i < count ∧ p = startPage + i := by
  simp only [batchPages, List.mem_map, List.mem_range]
  exact ⟨fun ⟨i, hi, he⟩ => ⟨i, hi, he.symm⟩, fun ⟨i, hi, he⟩ => ⟨i, hi, he.symm⟩⟩

/-- Claim C2: a batch with `page_count > 0` in which some but not all
pages fail with non-cancellation errors returns a non-error outcome: the
records of the successful pages (merged in page order) together with the
count of failed pages. -/
theorem processBatch_partial_failure
    (fetch : Nat → Option (List Rec × Option PageDesc)) (startPage count : Nat)
    (_hc : 0 < count)
    (_hsome : 0 < (batchPages startPage count).countP (fun p => (fetch p).isNone))
    (hnotall : (batchPages startPage count).countP (fun p => (fetch p).isNone) < count) :
    processBatchEnrollmentsFiltered fetch startPage count false =
      .ok (((batchPages startPage count).filterMap
            (fun p => (fetch p).map Prod.fst)).flatten)
        ((batchPages startPage count).countP (fun p => (fetch p).isNone)) := by
  simp only [processBatchEnrollmentsFiltered, Bool.false_eq_true, if_false]
  rw [if_neg (by rintro ⟨-, h, -⟩; omega)]
  rw [flatten_filter_nonempty]

/-- Concrete run of claim C2: the batch of the 10 pages 1-10 where
exactly pages 2, 5 and 7 fail returns the records of the other 7 pages
and a failure count of 3. -/
theorem processBatch_partial_failure_witness :
    processBatchEnrollmentsFiltered
        (fun p => if p = 2 ∨ p = 5 ∨ p = 7 then none else some ([p], none))
        1 10 false =
      .ok [1, 3, 4, 6, 8, 9, 10] 3 := by
  have h := processBatch_partial_failure
    (fun p => if p = 2 ∨ p = 5 ∨ p = 7 then none else some ([p], none))
    1 10 (by omega) (by decide) (by decide)
  simpa using h

/-- Claim C3: a batch with `page_count > 0` in which every page fails
with a non-cancellation error returns the `BatchFailed` error carrying
no records, and the driver loop treats the failed batch as skip and
continue: it advances to the next batch instead of aborting the run. -/
theorem processBatch_all_failed_run_continues
    (fetch : Nat → Option (List Rec × Option PageDesc))
    (bs totalPages : Nat) (sheet : String) (cancelTime : Option Nat)
    (currentPage iter : Nat) (acc : List Rec) (batches : List (Nat × Nat))
    (fuel : Nat)
    (hbs : 0 < bs)
    (hall : ∀ i, i < bs → fetch (currentPage + i) = none)
    (hcp : currentPage < totalPages)
    (hnc1 : isCancelledAt cancelTime (2 * iter) = false)
    (hnc2 : isCancelledAt cancelTime (2 * iter + 1) = false) :
    processBatchEnrollmentsFiltered fetch currentPage bs false = .allFailed ∧
    driverLoop bs totalPages sheet fetch cancelTime currentPage iter acc batches
        (fuel + 1) =
      driverLoop bs totalPages sheet fetch cancelTime (currentPage + bs) (iter + 1)
        acc (batches ++ [(currentPage, bs)]) fuel := by
  have hlen : (batchPages currentPage bs).length = bs := by
    simp [batchPages]
  have hcnt : (batchPages currentPage bs).countP (fun p => (fetch p).isNone) = bs := by
    have h1 : ∀ p ∈ batchPages currentPage bs, ((fetch p).isNone = true) := by
      intro p hp
      obtain ⟨i, hi, rfl⟩ := mem_batchPages.mp hp
      simp [hall i hi]
    calc (batchPages currentPage bs).countP (fun p => (fetch p).isNone)
        = (batchPages currentPage bs).length := List.countP_eq_length.mpr h1
      _ = bs := hlen
  have hbatch : processBatchEnrollmentsFiltered fetch currentPage bs false = .allFailed := by
    simp only [processBatchEnrollmentsFiltered, Bool.false_eq_true, if_false]
    rw [if_pos ⟨by omega, hcnt, hbs⟩]
  refine ⟨hbatch, ?_⟩
  simp only [driverLoop, if_pos hcp, hnc1, Bool.false_eq_true, if_false, hnc2, hbatch]

/-- Concrete run of claim C3: all 10 pages of a batch fail, the batch
returns `BatchFailed`, and the driver moves from page 1 to page 11. -/
theorem processBatch_all_failed_run_continues_witness :
    processBatchEnrollmentsFiltered (fun _ => none) 1 10 false = .allFailed ∧
    driverLoop 10 21 "s" (fun _ => none) none 1 0 [5] [] 3 =
      driverLoop 10 21 "s" (fun _ => none) none 11 1 [5] [(1, 10)] 2 := by
  have h := processBatch_all_failed_run_continues (fun _ => none) 10 21 "s" none
    1 0 [5] [] 2 (by omega) (fun i _ => rfl) (by omega) rfl rfl
  simpa using h

/-- Claim C1 (amended): a batch over whose execution the cancellation
signal becomes set returns the cancellation error regardless of partial
progress, and if the driver loop reaches the entry check of a further
iteration with the signal set it aborts the run with the cancellation
error, no further batch, and no sink write.  (When the signal is set
during the last batch the loop instead exits normally and the final sink
write is still invoked: see the counterexample.) -/
theorem cancelled_batch_and_driver_abort
    (fetch : Nat → Option (List Rec × Option PageDesc)) (startPage count : Nat)
    (bs totalPages : Nat) (sheet : String)
    (fetchD : Nat → Option (List Rec × Option PageDesc)) (cancelTime : Option Nat)
    (currentPage iter : Nat) (acc : List Rec) (batches : List (Nat × Nat))
    (fuel : Nat)
    (hcp : currentPage < totalPages)
    (hset : isCancelledAt cancelTime (2 * iter) = true) :
    processBatchEnrollmentsFiltered fetch startPage count true = .cancelled ∧
    driverLoop bs totalPages sheet fetchD cancelTime currentPage iter acc batches
        (fuel + 1) =
      ⟨.cancelledErr, acc, batches, false, []⟩ := by
  constructor
  · simp [processBatchEnrollmentsFiltered]
  · simp only [driverLoop, if_pos hcp, hset, if_true]

/-- Concrete run of claim C1 (amended): the signal set from instant 1
cancels the batch of iteration 0 and aborts the loop at the entry check
of iteration 1 with no sink write. -/
theorem cancelled_batch_and_driver_abort_witness :
    processBatchEnrollmentsFiltered (fun p => some ([p], none)) 3 4 true =
      .cancelled ∧
    driverLoop 2 9 "s" (fun p => some ([p], none)) (some 1) 3 1 [5] [(1, 2)] 4 =
      ⟨.cancelledErr, [5], [(1, 2)], false, []⟩ := by
  have h := cancelled_batch_and_driver_abort (fun p => some ([p], none)) 3 4
    2 9 "s" (fun p => some ([p], none)) (some 1) 3 1 [5] [(1, 2)] 3
    (by omega) (by decide)
  simpa using h

/-- Claim C1 counterexample: the signal is set during the one and only
batch (instant 1, between the entry check at instant 0 and the post-join
check at instant 1), the batch returns the cancellation error, yet the
run does not return a cancellation error and does invoke the final sink
write: the loop exits because the cancelled batch was the last one, and
the driver proceeds to `writeAllEnrollmentsToSheet`. -/
theorem cancel_during_last_batch_still_invokes_final_write :
    (FetchEnrollmentsFiltered 50 "s" (.ok [7] (some ⟨0, 500, 2, 2⟩))
        (fun _ => some ([9], none)) (some 1)).outcome = .writeFailed ∧
    (FetchEnrollmentsFiltered 50 "s" (.ok [7] (some ⟨0, 500, 2, 2⟩))
        (fun _ => some ([9], none)) (some 1)).outcome ≠ .cancelledErr ∧
    (FetchEnrollmentsFiltered 50 "s" (.ok [7] (some ⟨0, 500, 2, 2⟩))
        (fun _ => some ([9], none)) (some 1)).overwriteCalled = true := by
  decide

/-- Claim C8: a run whose page-0 descriptor reports `total_pages = 0` or
`total_elements = 0` returns an empty result and still issues the sink
overwrite — ensure, clear, then one update writing the headers with zero
data rows — and never an append. -/
theorem empty_run_overwrites_with_headers_only (mb : Nat) (sheet : String)
    (recs0 : List Rec) (pg : PageDesc)
    (fetch : Nat → Option (List Rec × Option PageDesc))
    (hz : pg.totalPages = 0 ∨ pg.totalElements = 0) :
    FetchEnrollmentsFiltered mb sheet (.ok recs0 (some pg)) fetch none =
      ⟨.ok, [], [], true,
        [.ensure sheet, .clear sheet, .update sheet [Row.header enrollmentHeaders]]⟩ ∧
    ∀ rows, SinkOp.append sheet rows ∉
      (FetchEnrollmentsFiltered mb sheet (.ok recs0 (some pg)) fetch none).sinkOps := by
  have hrun : FetchEnrollmentsFiltered mb sheet (.ok recs0 (some pg)) fetch none =
      ⟨.ok, [], [], true,
        [.ensure sheet, .clear sheet, .update sheet [Row.header enrollmentHeaders]]⟩ := by
    simp only [FetchEnrollmentsFiltered]
    rw [if_pos hz]
    simp [isCancelledAt, OverwriteSheetData, enrollmentHeaders]
  refine ⟨hrun, ?_⟩
  intro rows
  rw [hrun]
  simp

/-- Concrete run of claim C8: page 0 reports zero pages and zero
elements. -/
theorem empty_run_overwrites_with_headers_only_witness :
    FetchEnrollmentsFiltered 50 "s" (.ok [5] (some ⟨0, 500, 0, 0⟩))
        (fun _ => none) none =
      ⟨.ok, [], [], true,
        [.ensure "s", .clear "s", .update "s" [Row.header enrollmentHeaders]]⟩ ∧
    ∀ rows, SinkOp.append "s" rows ∉
      (FetchEnrollmentsFiltered 50 "s" (.ok [5] (some ⟨0, 500, 0, 0⟩))
        (fun _ => none) none).sinkOps :=
  empty_run_overwrites_with_headers_only 50 "s" [5] ⟨0, 500, 0, 0⟩
    (fun _ => none) (Or.inl rfl)

/-- With no cancellation the batch-request trace of the driver loop is
exactly the `issuedBatches` recurrence, regardless of the fetch
outcomes. -/
theorem driverLoop_batches (bs totalPages : Nat) (sheet : String)
    (fetch : Nat → Option (List Rec × Option PageDesc)) :
    ∀ (fuel currentPage iter : Nat) (acc : List Rec) (bts : List (Nat × Nat)),
      (driverLoop bs totalPages sheet fetch none currentPage iter acc bts
        fuel).batches =
        bts ++ issuedBatches bs totalPages currentPage fuel := by
  intro fuel
  induction fuel with
  | zero =>
    intro cp it acc bts
    simp [driverLoop, finalizeRun, issuedBatches, isCancelledAt]
  | succ f ih =>
    intro cp it acc bts
    by_cases hcp : cp < totalPages
    · simp only [driverLoop, if_pos hcp, isCancelledAt, Bool.false_eq_true, if_false]
      split
      · rw [ih]
        simp [issuedBatches, hcp, List.append_assoc]
      · rw [ih]
        simp [issuedBatches, hcp, List.append_assoc]
    · simp [driverLoop, hcp, finalizeRun, isCancelledAt, issuedBatches]

/-- Every issued batch request has the fixed size `bs` and starts below
`totalPages`. -/
theorem issuedBatches_mem (bs totalPages : Nat) :
    ∀ (fuel currentPage : Nat), ∀ b ∈ issuedBatches bs totalPages currentPage fuel,
      b.2 = bs ∧ b.1 < totalPages := by
  intro fuel
  induction fuel with
  | zero => intro cp b hb; simp [issuedBatches] at hb
  | succ f ih =>
    intro cp b hb
    by_cases hcp : cp < totalPages
    · simp only [issuedBatches, if_pos hcp, List.mem_cons] at hb
      rcases hb with rfl | hb
      · exact ⟨rfl, hcp⟩
      · exact ih (cp + bs) b hb
    · simp [issuedBatches, hcp] at hb

/-- With positive batch size and enough fuel, every page index from
`currentPage` up to `totalPages - 1` falls inside some issued batch. -/
theorem issuedBatches_cover (bs totalPages : Nat) (hbs : 0 < bs) :
    ∀ (fuel currentPage : Nat), totalPages ≤ currentPage + fuel →
      ∀ p, currentPage ≤ p → p < totalPages →
        ∃ b ∈ issuedBatches bs totalPages currentPage fuel,
          b.1 ≤ p ∧ p < b.1 + b.2 := by
  intro fuel
  induction fuel with
  | zero => intro cp hf p hp1 hp2; omega
  | succ f ih =>
    intro cp hf p hp1 hp2
    have hcp : cp < totalPages := by omega
    by_cases hin : p < cp + bs
    · exact ⟨(cp, bs), by simp [issuedBatches, hcp], hp1, hin⟩
    · obtain ⟨b, hb, hble⟩ := ih (cp + bs) (by omega) p (by omega) hp2
      refine ⟨b, ?_, hble⟩
      simp only [issuedBatches, if_pos hcp]
      exact List.mem_cons_of_mem _ hb

/-- Claim C9 counterexample: with `max_pages_per_batch = 4` and
`total_pages = 6` the driver issues the batches `(1, 4)` and `(5, 4)`:
the second batch requests pages 5, 6, 7, 8 although only pages up to 5
exist, and its size 4 is not `min(max_pages_per_batch, remaining)`,
which would be `min 4 1 = 1`. -/
theorem final_batch_overshoots_total_pages :
    (FetchEnrollmentsFiltered 4 "s" (.ok [] (some ⟨0, 500, 3000, 6⟩))
        (fun p => some ([p], none)) none).batches = [(1, 4), (5, 4)] ∧
    ((5 : Nat), (4 : Nat)) ∈
      (FetchEnrollmentsFiltered 4 "s" (.ok [] (some ⟨0, 500, 3000, 6⟩))
        (fun p => some ([p], none)) none).batches ∧
    (6 : Nat) ≤ 5 + 4 - 1 ∧ ¬((4 : Nat) = min 4 (6 - 5)) := by decide

/-- Claim C9 (amended): for `total_pages > 1` every batch the driver
issues has the fixed size `min(max_pages_per_batch, total_pages - 1)` —
computed once before the loop, not per batch — and starts below
`total_pages`; together the batches cover every page index in
`1 .. total_pages - 1`, the final batch possibly extending past
`total_pages - 1`. -/
theorem driver_batches_fixed_size_and_cover
    (mb : Nat) (sheet : String) (recs0 : List Rec) (pg : PageDesc)
    (fetch : Nat → Option (List Rec × Option PageDesc))
    (hmb : 0 < mb) (htp : 1 < pg.totalPages) (hne : pg.totalElements ≠ 0) :
    (∀ b ∈ (FetchEnrollmentsFiltered mb sheet (.ok recs0 (some pg)) fetch
        none).batches,
      b.2 = min mb (pg.totalPages - 1) ∧ b.1 < pg.totalPages) ∧
    (∀ p, 1 ≤ p → p < pg.totalPages →
      ∃ b ∈ (FetchEnrollmentsFiltered mb sheet (.ok recs0 (some pg)) fetch
          none).batches,
        b.1 ≤ p ∧ p < b.1 + b.2) := by
  have hrun : (FetchEnrollmentsFiltered mb sheet (.ok recs0 (some pg)) fetch
      none).batches =
      issuedBatches (min mb (pg.totalPages - 1)) pg.totalPages 1 pg.totalPages := by
    simp only [FetchEnrollmentsFiltered]
    rw [if_neg (by rintro (h | h) <;> omega), if_pos htp]
    rw [driverLoop_batches]
    simp
  constructor
  · intro b hb
    rw [hrun] at hb
    exact issuedBatches_mem _ _ _ _ b hb
  · intro p hp1 hp2
    rw [hrun]
    exact issuedBatches_cover _ _ (by omega) pg.totalPages 1 (by omega) p hp1 hp2

/-- Concrete run of claim C9 (amended): the `max_pages_per_batch = 4`,
`total_pages = 6` instance. -/
theorem driver_batches_fixed_size_and_cover_witness :
    (∀ b ∈ (FetchEnrollmentsFiltered 4 "s" (.ok [] (some ⟨0, 500, 3000, 6⟩))
        (fun p => some ([p], none)) none).batches,
      b.2 = min 4 (6 - 1) ∧ b.1 < 6) ∧
    (∀ p, 1 ≤ p → p < 6 →
      ∃ b ∈ (FetchEnrollmentsFiltered 4 "s" (.ok [] (some ⟨0, 500, 3000, 6⟩))
          (fun p => some ([p], none)) none).batches,
        b.1 ≤ p ∧ p < b.1 + b.2) :=
  driver_batches_fixed_size_and_cover 4 "s" [] ⟨0, 500, 3000, 6⟩
    (fun p => some ([p], none)) (by omega) (by decide) (by decide)

/-- Claim C10: a response body that is valid envelope JSON without the
page object decodes to a success with a `nil` page descriptor, not a
decode error; a decode error arises exactly when unmarshalling fails;
only the page-0 path of the driver rejects a `nil` descriptor, with an
error; and the batch workers ignore descriptors entirely — two fetch
functions agreeing on records give identical batch results. -/
theorem nil_page_descriptor_not_decode_error
    (tok : String) (e recs0 : List Rec) (mb : Nat) (sheet : String)
    (fetch fetchB fetchB2 : Nat → Option (List Rec × Option PageDesc))
    (cancelTime : Option Nat) (startPage count : Nat) (cflag : Bool)
    (hfg : ∀ p, (fetchB p).map Prod.fst = (fetchB2 p).map Prod.fst) :
    FetchPage (.ok tok) (some (.envelope none e)) = .ok e none ∧
    (∀ body, FetchPage (.ok tok) (some body) = .decodeErr ↔ body = .invalid) ∧
    FetchEnrollmentsFiltered mb sheet (.ok recs0 none) fetch cancelTime =
      ⟨.noPageInfo, [], [], false, []⟩ ∧
    processBatchEnrollmentsFiltered fetchB startPage count cflag =
      processBatchEnrollmentsFiltered fetchB2 startPage count cflag := by
  refine ⟨rfl, ?_, rfl, ?_⟩
  · intro body
    cases body with
    | invalid => simp [FetchPage]
    | envelope pg el => simp [FetchPage]
  · have hnone : (fun p => (fetchB p).isNone) = (fun p => (fetchB2 p).isNone) := by
      funext p
      have h := hfg p
      cases hB : fetchB p <;> cases hB2 : fetchB2 p <;> simp_all
    have hfst : (fun p => (fetchB p).map Prod.fst) =
        (fun p => (fetchB2 p).map Prod.fst) := funext hfg
    simp only [processBatchEnrollmentsFiltered]
    rw [hnone, hfst]

/-- Concrete run of claim C10: a body lacking the page object, a body
that fails to unmarshal, a page-0 result with `nil` descriptor, and two
batches whose fetches differ only in descriptors. -/
theorem nil_page_descriptor_not_decode_error_witness :
    FetchPage (.ok "t") (some (.envelope none [1])) = .ok [1] none ∧
    (∀ body, FetchPage (.ok "t") (some body) = .decodeErr ↔ body = .invalid) ∧
    FetchEnrollmentsFiltered 1 "s" (.ok [2] none) (fun _ => none) none =
      ⟨.noPageInfo, [], [], false, []⟩ ∧
    processBatchEnrollmentsFiltered (fun p => some ([p], none)) 1 2 false =
      processBatchEnrollmentsFiltered (fun p => some ([p], some ⟨0, 0, 0, 0⟩))
        1 2 false :=
  nil_page_descriptor_not_decode_error "t" [1] [2] 1 "s" (fun _ => none)
    (fun p => some ([p], none)) (fun p => some ([p], some ⟨0, 0, 0, 0⟩))
    none 1 2 false (fun _ => rfl)

end FetchStudentData
